import Mathlib

set_option autoImplicit false

/-!
Verification of the rgr2import photo-download utility (src/main.c) against
its natural-language specification.  C byte strings are modelled as lists of
characters; machine-level details (buffer capacities, snprintf truncation
bounds) are carried explicitly where they matter.
-/

namespace RGR2

/-- C strings are modelled as lists of characters (ASCII bytes). -/
abbrev Str := List Char

/-! ## Path/Name sanitizer (src/main.c, `sanitize_filename`, lines 203-221) -/

/-- The character whitelist of `sanitize_filename`: alphanumeric, dot,
hyphen, underscore (the C comparisons `*src >= 'a' && *src <= 'z'` etc.). -/
def isAllowedChar (c : Char) : Bool :=
  (97 ≤ c.toNat && c.toNat ≤ 122) ||   -- 'a'..'z'
  (65 ≤ c.toNat && c.toNat ≤ 90)  ||   -- 'A'..'Z'
  (48 ≤ c.toNat && c.toNat ≤ 57)  ||   -- '0'..'9'
  c == '.' || c == '-' || c == '_'

/-- In-place compaction loop of `sanitize_filename`: keep a character when it
is on the whitelist, drop it otherwise. -/
def sanitize_filename : Str → Str
  | [] => []
  | c :: rest =>
    if isAllowedChar c then c :: sanitize_filename rest
    else sanitize_filename rest

/-! ## Format filter (src/main.c, `matches_format`, lines 130-148) -/

/-- ASCII lower-casing as done by `strcasecmp` in the C locale. -/
def asciiLower (c : Char) : Char :=
  if 65 ≤ c.toNat && c.toNat ≤ 90 then Char.ofNat (c.toNat + 32) else c

/-- Case-insensitive string equality (`strcasecmp(a,b) == 0`). -/
def strcaseeq (a b : Str) : Bool :=
  a.map asciiLower = b.map asciiLower

/-- Model of `strrchr(filename, '.')` followed by `ext++`: the text after the
LAST dot of the string, or `none` when the string has no dot. -/
def ext_after_last_dot : Str → Option Str
  | [] => none
  | c :: rest =>
    match ext_after_last_dot rest with
    | some e => some e
    | none => if c = '.' then some rest else none

/-- Direct model of `matches_format(filename, format)`. -/
def matches_format (filename format : Str) : Bool :=
  if format = "all".data then true
  else
    match ext_after_last_dot filename with
    | none => false
    | some ext =>
      if format = "jpg".data then
        strcaseeq ext "jpg".data || strcaseeq ext "jpeg".data
      else if format = "dng".data then
        strcaseeq ext "dng".data
      else false

/-! ## Path validation (src/main.c, `validate_path`, lines 224-238) -/

/-- Whether `pat` starts the string `s` (helper for the `strstr` model). -/
def startsWithStr : Str → Str → Bool
  | [], _ => true
  | _ :: _, [] => false
  | p :: ps, c :: cs => p == c && startsWithStr ps cs

/-- Model of `strstr(s, pat) != NULL`: `pat` occurs somewhere inside `s`. -/
def hasInfixStr (pat : Str) : Str → Bool
  | [] => startsWithStr pat []
  | c :: rest => startsWithStr pat (c :: rest) || hasInfixStr pat rest

/-- Model of `validate_path`: non-empty, no `..`, no `//`, length below
`MAX_PATH` (512).  Returns `true` for the C return value `0` (valid). -/
def validate_path (p : Str) : Bool :=
  !(p.length = 0) && !(hasInfixStr "..".data p) && !(hasInfixStr "//".data p)
    && p.length < 512

/-! ## Timestamp to date folder (src/main.c, `timestamp_to_date_folder`,
lines 241-261).  The C code runs
`sscanf(timestamp, "%4d-%2d-%2dT%2d:%2d:%2d", ...)` and, when at least the
first three conversions succeed, prints `"%04d-%02d-%02d"` of year, month and
day (the `-= 1900 / -= 1` adjustments are undone before printing, so the
scanned values are printed unchanged); otherwise it falls back to the current
local date, which the model takes as the parameter `today`. -/

/-- C-locale `isspace`, used by `sscanf` before a `%d` conversion. -/
def isSpaceChar (c : Char) : Bool :=
  c == ' ' || c == '\t' || c == '\n' || c.toNat = 11 || c.toNat = 12 || c == '\r'

/-- ASCII decimal digit test. -/
def isDigitChar (c : Char) : Bool := 48 ≤ c.toNat && c.toNat ≤ 57

/-- Take up to `w` leading decimal digits; returns the digits taken and the
remaining input. -/
def takeDigits : Nat → Str → Str × Str
  | 0, s => ([], s)
  | _ + 1, [] => ([], [])
  | w + 1, c :: rest =>
    if isDigitChar c then
      let p := takeDigits w rest
      (c :: p.1, p.2)
    else ([], c :: rest)

/-- Numeric value of a digit string. -/
def digitsToNat (ds : Str) : Nat :=
  ds.foldl (fun a c => a * 10 + (c.toNat - 48)) 0

/-- One `%wd` conversion of `sscanf`: skip whitespace, optional sign (which
counts against the field width), then at least one digit, at most filling the
width.  Returns the value and the remaining input, or `none` on matching
failure. -/
def scanInt (w : Nat) (s : Str) : Option (Int × Str) :=
  match s.dropWhile isSpaceChar with
  | [] => none
  | c :: rest =>
    if c = '-' then
      if (takeDigits (w - 1) rest).1 = [] then none
      else some (-(digitsToNat (takeDigits (w - 1) rest).1 : Int),
                 (takeDigits (w - 1) rest).2)
    else if c = '+' then
      if (takeDigits (w - 1) rest).1 = [] then none
      else some ((digitsToNat (takeDigits (w - 1) rest).1 : Int),
                 (takeDigits (w - 1) rest).2)
    else
      if (takeDigits w (c :: rest)).1 = [] then none
      else some ((digitsToNat (takeDigits w (c :: rest)).1 : Int),
                 (takeDigits w (c :: rest)).2)

/-- A literal (non-space) character in a `sscanf` format: must match the next
input character exactly. -/
def scanLit (c : Char) (s : Str) : Option Str :=
  match s with
  | [] => none
  | c2 :: rest => if c2 = c then some rest else none

/-- Result of scanning `"%4d-%2d-%2dT%2d:%2d:%2d"`: how many of the first
three conversions were assigned, and their values (`struct tm` is
zero-initialised, so unassigned slots read 0).  The C code only tests
`sscanf(...) >= 3` and only uses the first three values, so conversions past
the third are irrelevant and `count` saturates at 3. -/
structure TsScan where
  count : Nat
  year : Int
  mon : Int
  mday : Int
  deriving DecidableEq

/-- Scan of the format string `"%4d-%2d-%2dT%2d:%2d:%2d"` over a timestamp. -/
def scan_timestamp (s : Str) : TsScan :=
  match scanInt 4 s with
  | none => ⟨0, 0, 0, 0⟩
  | some (y, s1) =>
    match scanLit '-' s1 with
    | none => ⟨1, y, 0, 0⟩
    | some s2 =>
      match scanInt 2 s2 with
      | none => ⟨1, y, 0, 0⟩
      | some (mo, s3) =>
        match scanLit '-' s3 with
        | none => ⟨2, y, mo, 0⟩
        | some s4 =>
          match scanInt 2 s4 with
          | none => ⟨2, y, mo, 0⟩
          | some (md, _) => ⟨3, y, mo, md⟩

/-- ASCII character of a decimal digit. -/
def digitChar (d : Nat) : Char := Char.ofNat (48 + d)

/-- Decimal digits of `n` (fuelled; `fuel = n + 1` always suffices). -/
def natDigitsAux : Nat → Nat → Str
  | 0, _ => []
  | fuel + 1, n => if n = 0 then [] else natDigitsAux fuel (n / 10) ++ [digitChar (n % 10)]

/-- Decimal representation of a natural number. -/
def natDigits (n : Nat) : Str := if n = 0 then ['0'] else natDigitsAux (n + 1) n

/-- Zero-pad a digit string on the left to width `w`. -/
def padZero (w : Nat) (ds : Str) : Str := List.replicate (w - ds.length) '0' ++ ds

/-- `snprintf` `%0wd` of an integer: glibc places the minus sign first and
zero-pads after it up to the total field width. -/
def fmtIntPad (w : Nat) (v : Int) : Str :=
  if v < 0 then '-' :: padZero (w - 1) (natDigits v.natAbs)
  else padZero w (natDigits v.toNat)

/-- Model of `timestamp_to_date_folder`.  `today` stands for the
`time(NULL)/localtime/strftime("%Y-%m-%d")` current local date used by the
fallback branch. -/
def timestamp_to_date_folder (timestamp today : Str) : Str :=
  let r := scan_timestamp timestamp
  if 3 ≤ r.count then
    fmtIntPad 4 r.year ++ ['-'] ++ fmtIntPad 2 r.mon ++ ['-'] ++ fmtIntPad 2 r.mday
  else today

/-- Decidable model of the regular expression `^\d{4}-\d{2}-\d{2}$`. -/
def matchesDateRe (s : Str) : Bool :=
  match s with
  | [a, b, c, d, e, f, g, h, i, j] =>
    isDigitChar a && isDigitChar b && isDigitChar c && isDigitChar d &&
    e == '-' && isDigitChar f && isDigitChar g &&
    h == '-' && isDigitChar i && isDigitChar j
  | _ => false

/-! ## Index decoding (src/main.c, `parse_photos_json`, lines 353-434).
The JSON library (cJSON) is an external collaborator and is modelled as a
black box returning a tree of nodes; `cJSON_Parse` failure is modelled by
passing `none` for the whole document. -/

/-- A cJSON node tree. -/
inductive Json where
  | null
  | bool (b : Bool)
  | num (v : Int)
  | str (s : Str)
  | arr (items : List Json)
  | obj (fields : List (Str × Json))

/-- First field of an object with exactly the given key
(`cJSON_GetObjectItemCaseSensitive` on an object node). -/
def lookupField : List (Str × Json) → Str → Option Json
  | [], _ => none
  | (k, v) :: rest, key => if k = key then some v else lookupField rest key

/-- `cJSON_GetObjectItemCaseSensitive(node, key)`: `none` models a NULL
result (also when the node is not an object). -/
def getItem : Json → Str → Option Json
  | .obj fields, key => lookupField fields key
  | _, _ => none

/-- `cJSON_IsString(node) && node->valuestring`: the string payload. -/
def Json.asString : Json → Option Str
  | .str s => some s
  | _ => none

/-- `cJSON_IsArray(node)`: the element list. -/
def Json.asArray : Json → Option (List Json)
  | .arr items => some items
  | _ => none

/-- String field of an object, `none` when absent or not a string. -/
def getStr (node : Json) (key : Str) : Option Str :=
  (getItem node key).bind Json.asString

/-- One record of the decoded photo list (`struct photo`). -/
structure Photo where
  name : Str
  tag : Str
  date : Str
  deriving DecidableEq

/-- Date written into the current slot (lines 416-425): the `"d"` timestamp
run through `timestamp_to_date_folder` when present as a string, else the
current local date. -/
def file_date (today : Str) (file : Json) : Str :=
  match getStr file "d".data with
  | some dv => timestamp_to_date_folder dv today
  | none => today

/-- Body of the inner `cJSON_ArrayForEach(file, files)` loop.  The loop state
is the list of records committed so far (`photos[0..count-1]`) together with
the current content of the slot `photos[count]`; `junk i` is the arbitrary
initial content of slot `i` — the C array comes from `malloc`/`realloc` and
is never initialised.  When `"n"` is a string, the slot's `name` and `tag`
are overwritten with the (truncated to 255 chars by `strncpy`, then
sanitized) values, and the entry is abandoned if the sanitized name is empty
— leaving those partial writes in the slot.  When `"n"` is absent or not a
string, the C code performs no such writes and no skip, so the slot keeps
whatever it held; in both surviving cases the date is written and the slot is
committed. -/
def process_file (today : Str) (junk : Nat → Photo) (tagStr : Str)
    (st : List Photo × Photo) (file : Json) : List Photo × Photo :=
  let recs := st.1
  let slot := st.2
  match getStr file "n".data with
  | some nv =>
    let nm := sanitize_filename (nv.take 255)
    let tg := sanitize_filename (tagStr.take 255)
    let slot1 : Photo := { slot with name := nm, tag := tg }
    if nm = [] then (recs, slot1)
    else (recs ++ [{ slot1 with date := file_date today file }],
          junk (recs.length + 1))
  | none =>
    (recs ++ [{ slot with date := file_date today file }],
     junk (recs.length + 1))

/-- Body of the outer `cJSON_ArrayForEach(dir, dirs)` loop: skip the
directory entirely when its `"name"` is not a string or its `"files"` is not
an array, else fold over the files. -/
def process_dir (today : Str) (junk : Nat → Photo)
    (st : List Photo × Photo) (dir : Json) : List Photo × Photo :=
  match getStr dir "name".data with
  | none => st
  | some tagStr =>
    match (getItem dir "files".data).bind Json.asArray with
    | none => st
    | some files => files.foldl (process_file today junk tagStr) st

/-- Model of `parse_photos_json`.  `input = none` models a body that
`cJSON_Parse` rejects; a missing/non-array `"dirs"` is the other hard
failure; both return `none` (the C `-1`).  Otherwise the record list is
built by the two nested loops. -/
def parse_photos_json (junk : Nat → Photo) (today : Str)
    (input : Option Json) : Option (List Photo) :=
  match input with
  | none => none
  | some json =>
    match (getItem json "dirs".data).bind Json.asArray with
    | none => none
    | some dirs => some (dirs.foldl (process_dir today junk) ([], junk 0)).1

/-! ## Download engine (src/main.c, `download_photo`, lines 264-351).
The filesystem is modelled as an association list from paths to nodes; the
photo-GET network transfer is an oracle from URL to outcome.  `mkdir`,
`fopen` and `curl_easy_init` are assumed to succeed (their failure paths
return `-1` early or skip the transfer; no claim depends on them). -/

/-- A filesystem node: a directory or a file with its content. -/
inductive Node where
  | dir
  | file (content : Str)
  deriving DecidableEq

/-- The filesystem: existing paths and what they hold. -/
abbrev Fs := List (Str × Node)

/-- Node at a path, if the path exists. -/
def fsLookup : Fs → Str → Option Node
  | [], _ => none
  | (q, nd) :: rest, p => if q = p then some nd else fsLookup rest p

/-- Model of `access(path, F_OK) == 0` / a successful `stat`. -/
def fsExists (fs : Fs) (p : Str) : Bool := (fsLookup fs p).isSome

/-- Create or overwrite the node at a path. -/
def fsWrite (fs : Fs) (p : Str) (nd : Node) : Fs :=
  match fs with
  | [] => [(p, nd)]
  | (q, old) :: rest =>
    if q = p then (q, nd) :: rest else (q, old) :: fsWrite rest p nd

/-- Model of `unlink(path)`. -/
def fsRemove (fs : Fs) (p : Str) : Fs :=
  fs.filter (fun e => if e.1 = p then false else true)

/-- Outcome of the streamed photo GET: either the whole body arrives, or the
transfer fails after `written` bytes reached the file. -/
inductive Transfer where
  | success (body : Str)
  | failMid (written : Str)

/-- Result of one `download_photo` call, distinguishing outcomes the C code
reports through its messages: `downloaded`/`skippedExists` both return `0`
to the caller, `failed` returns `-1`. -/
inductive Outcome where
  | downloaded
  | skippedExists
  | failed
  deriving DecidableEq

/-- Value of one `download_photo` call: resulting filesystem, outcome, and
the URLs requested over the network (in order). -/
structure DlResult where
  fs : Fs
  outcome : Outcome
  requests : List Str
  deriving DecidableEq

/-- The download URL: `snprintf(url, 512, "%s/v1/photos/%s/%s", ...)`;
`snprintf` keeps at most 511 characters. -/
def mk_url (baseUrl tag name : Str) : Str :=
  (baseUrl ++ "/v1/photos/".data ++ tag ++ ['/'] ++ name).take 511

/-- The destination directory `snprintf(full_dir_path, 512, "%s/%s",
base_path, date_folder)`. -/
def full_dir_path (basePath dateFolder : Str) : Str :=
  (basePath ++ ['/'] ++ dateFolder).take 511

/-- The destination file `snprintf(filepath, 1024, "%s/%s", full_dir_path,
name)`. -/
def file_path (basePath dateFolder name : Str) : Str :=
  (full_dir_path basePath dateFolder ++ ['/'] ++ name).take 1023

/-- Model of `download_photo(base_url, name, tag, date_folder, base_path)`. -/
def download_photo (net : Str → Transfer)
    (baseUrl name tag dateFolder basePath : Str) (fs : Fs) : DlResult :=
  if !validate_path basePath then ⟨fs, .failed, []⟩
  else
    let fullDir := full_dir_path basePath dateFolder
    if !validate_path fullDir then ⟨fs, .failed, []⟩
    else
      let fs1 := if fsExists fs fullDir then fs else fsWrite fs fullDir .dir
      let filepath := file_path basePath dateFolder name
      if fsExists fs1 filepath then ⟨fs1, .skippedExists, []⟩
      else
        let url := mk_url baseUrl tag name
        let fs2 := fsWrite fs1 filepath (.file [])
        match net url with
        | .success body => ⟨fsWrite fs2 filepath (.file body), .downloaded, [url]⟩
        | .failMid written =>
          ⟨fsRemove (fsWrite fs2 filepath (.file written)) filepath, .failed, [url]⟩

/-! ## CLI options and the orchestrator loop (src/main.c, `main`,
lines 436-556, and `parse_arguments`, lines 71-127). -/

/-- `struct cli_options` (the `help` flag is handled before the run). -/
structure CliOptions where
  format : Str
  filename : Str
  target_path : Str
  deriving DecidableEq

/-- The `-F` option handler (lines 102-109): truncate to 255 characters
(`strncpy`), sanitize, and reject when the sanitized result is empty. -/
def parse_file_option (arg : Str) : Option Str :=
  let f := sanitize_filename (arg.take 255)
  if f = [] then none else some f

/-- The two `continue` tests of the download loop (lines 518-527): a record
is processed when it passes the exact-filename check (if set) AND the format
check. -/
def record_passes (opts : CliOptions) (p : Photo) : Bool :=
  if opts.filename ≠ [] ∧ p.name ≠ opts.filename then false
  else matches_format p.name opts.format

/-- Value of the download loop: final filesystem, the `downloaded` counter
printed as "Downloaded %d photos", the records for which a download was
attempted (in order), their outcomes, and all network requests. -/
structure RunSummary where
  fs : Fs
  downloaded : Nat
  attempted : List Photo
  outcomes : List Outcome
  requests : List Str
  deriving DecidableEq

/-- Model of the `for (i = 0; i < photo_count; i++)` loop of `main`:
`dl` is the running `downloaded` counter, incremented whenever
`download_photo` returns `0` (outcomes `downloaded` and `skippedExists`). -/
def run_downloads (net : Str → Transfer) (baseUrl basePath : Str)
    (opts : CliOptions) : List Photo → Fs → Nat → RunSummary
  | [], fs, dl => ⟨fs, dl, [], [], []⟩
  | p :: rest, fs, dl =>
    if record_passes opts p then
      let r := download_photo net baseUrl p.name p.tag p.date basePath fs
      let dl1 := if r.outcome = .failed then dl else dl + 1
      let res := run_downloads net baseUrl basePath opts rest r.fs dl1
      ⟨res.fs, res.downloaded, p :: res.attempted, r.outcome :: res.outcomes,
        r.requests ++ res.requests⟩
    else run_downloads net baseUrl basePath opts rest fs dl

/-! ## Whole-run model (src/main.c, `main`). -/

/-- Result of `parse_arguments` plus the help flag in `main`. -/
inductive ArgsResult where
  | help
  | err
  | ok (opts : CliOptions)

/-- How far a run got after option/path setup. -/
inductive RunPhase where
  | notStarted
  | indexTransportFailed
  | decodeFailed
  | completed (summary : RunSummary)
  deriving DecidableEq

/-- Exit code of the process together with the phase reached. -/
structure MainResult where
  exitCode : Nat
  phase : RunPhase
  deriving DecidableEq

/-- Default destination root `snprintf("%s/Pictures/RicohGRII", home)`. -/
def defaultBasePath (home : Str) : Str :=
  (home ++ "/Pictures/RicohGRII".data).take 511

/-- The camera base URL hard-coded in `main`. -/
def cameraBaseUrl : Str := "http://192.168.0.1".data

/-- The part of `main` from the index GET on: transport failure and decode
failure print a message and skip the download loop; a decoded list runs the
download loop with the `downloaded` counter starting at 0. -/
def main_phase (opts : CliOptions) (basePath : Str)
    (indexFetch : Option (Option Json)) (junk : Nat → Photo) (today : Str)
    (net : Str → Transfer) (fs : Fs) : RunPhase :=
  match indexFetch with
  | none => .indexTransportFailed
  | some body =>
    match parse_photos_json junk today body with
    | none => .decodeFailed
    | some photos =>
      .completed (run_downloads net cameraBaseUrl basePath opts photos fs 0)

/-- Model of `main` after argument parsing.  `home` is the `HOME`
environment variable; `mkdirBaseOk` is whether creating the base directory
succeeds when it does not exist; `indexFetch = none` models a transport
failure of the index GET, `some body` a completed GET whose bytes parse to
`body` (`none` inside when `cJSON_Parse` rejects them).  Every path that
reaches the index stage falls through to the shared `return 0` at the end
of `main`. -/
def main_model (args : ArgsResult) (home : Option Str) (mkdirBaseOk : Bool)
    (indexFetch : Option (Option Json)) (junk : Nat → Photo) (today : Str)
    (net : Str → Transfer) (fs : Fs) : MainResult :=
  match args with
  | .err => ⟨1, .notStarted⟩
  | .help => ⟨0, .notStarted⟩
  | .ok opts =>
    let basePathOpt : Option Str :=
      if opts.target_path ≠ [] then some opts.target_path
      else
        match home with
        | none => none
        | some h =>
          if validate_path (defaultBasePath h) then some (defaultBasePath h)
          else none
    match basePathOpt with
    | none => ⟨1, .notStarted⟩
    | some basePath =>
      if fsExists fs basePath then
        ⟨0, main_phase opts basePath indexFetch junk today net fs⟩
      else if mkdirBaseOk then
        ⟨0, main_phase opts basePath indexFetch junk today net
          (fsWrite fs basePath .dir)⟩
      else ⟨1, .notStarted⟩

/-! ## Spec-side descriptions and concrete instances used by the theorems -/

/-- The character class `[A-Za-z0-9._-]` spelled out as a concrete list. -/
def allowedClass : Str :=
  "ABCDEFGHIJKLMNOPQRSTUVWXYZabcdefghijklmnopqrstuvwxyz0123456789._-".data

/-- Slot junk standing for freshly zeroed memory. -/
def zeroJunk : Nat → Photo := fun _ => ⟨[], [], []⟩

/-- Slot junk whose bytes fall outside the sanitizer's whitelist, as
uninitialised malloc memory may. -/
def badJunk : Nat → Photo := fun _ => ⟨"!!".data, "??".data, "zz".data⟩

/-- The end-to-end example index document of the spec. -/
def specDoc : Json :=
  .obj [("dirs".data, .arr [
    .obj [("name".data, .str "100RICOH".data),
          ("files".data, .arr [
            .obj [("n".data, .str "R0001234.JPG".data),
                  ("d".data, .str "2025-06-07T09:32:40".data)]])]])]

/-- Index document whose single file entry has no `"n"` field. -/
def noNDoc : Json :=
  .obj [("dirs".data, .arr [
    .obj [("name".data, .str "100RICOH".data),
          ("files".data, .arr [
            .obj [("d".data, .str "2025-06-07T09:32:40".data)]])]])]

/-- Network oracle whose transfers all complete. -/
def okNet : Str → Transfer := fun _ => .success "BYTES".data

/-- Network oracle whose transfers all fail after two bytes. -/
def badNet : Str → Transfer := fun _ => .failMid "BY".data

/-- Concrete destination file path used in witnesses. -/
def fp1 : Str := "/b/2025-06-07/X.JPG".data

/-- Concrete destination directory used in witnesses. -/
def dir1 : Str := "/b/2025-06-07".data

/-- Being different from the dot character, as a Boolean test. -/
def notDot (c : Char) : Bool := !(c == '.')

/-- Spec-side description of "the text after the last dot": the longest
dot-free suffix, defined through `reverse`/`takeWhile` rather than through
the `strrchr` recursion of the code. -/
def extSpec (name : Str) : Option Str :=
  if '.' ∈ name then some ((name.reverse.takeWhile notDot).reverse) else none

/-- Count of outcomes for which `download_photo` returned `0` to `main`
(both an actual download and an already-exists skip do). -/
def countNonFailed : List Outcome → Nat
  | [] => 0
  | o :: rest => (if o = .failed then 0 else 1) + countNonFailed rest

/-- Whether a file entry's `"d"` timestamp is benign for the date shape: if
the fixed-width scan assigns the first three conversions, none of them is
negative (a minus sign in the timestamp is the only way the printed date can
escape `\d{4}-\d{2}-\d{2}`). -/
def fileDateOk (file : Json) : Bool :=
  match getStr file "d".data with
  | some dv =>
    if 3 ≤ (scan_timestamp dv).count then
      decide (0 ≤ (scan_timestamp dv).year) &&
      decide (0 ≤ (scan_timestamp dv).mon) &&
      decide (0 ≤ (scan_timestamp dv).mday)
    else true
  | none => true

/-- `fileDateOk` over every file entry of a directory entry that decoding
will visit. -/
def dirDatesOk (dir : Json) : Bool :=
  match getStr dir "name".data with
  | none => true
  | some _ =>
    match (getItem dir "files".data).bind Json.asArray with
    | none => true
    | some files => files.all fileDateOk

/-- `dirDatesOk` over every directory entry of the index document. -/
def docDatesOk (input : Option Json) : Bool :=
  match input with
  | none => true
  | some json =>
    match (getItem json "dirs".data).bind Json.asArray with
    | none => true
    | some dirs => dirs.all dirDatesOk

/-- Index document whose single file entry carries the hostile timestamp
`-1-1-1`: the fixed-width scan accepts it (three components, two negative). -/
def negDoc : Json :=
  .obj [("dirs".data, .arr [
    .obj [("name".data, .str "100RICOH".data),
          ("files".data, .arr [
            .obj [("n".data, .str "X.JPG".data),
                  ("d".data, .str "-1-1-1".data)]])]])]

/-- Whether decoding drops a file entry: this happens exactly when `"n"` is
a string whose truncated-then-sanitized value is empty. -/
def fileDropped (file : Json) : Bool :=
  match getStr file "n".data with
  | some nv => decide (sanitize_filename (nv.take 255) = [])
  | none => false

/-- File entry used by the C10 witness. -/
def emptyTagFile : Json :=
  .obj [("n".data, .str "X.JPG".data),
        ("d".data, .str "2025-06-07T09:32:40".data)]

/-! ## Helper lemmas about the sanitizer -/

theorem isAllowedChar_iff_mem (c : Char) :
    isAllowedChar c = true ↔ c ∈ allowedClass := by
  constructor
  · intro h
    have hc : Char.ofNat c.toNat = c := Char.ofNat_toNat c
    simp only [isAllowedChar, Bool.or_eq_true, Bool.and_eq_true,
      decide_eq_true_eq, beq_iff_eq] at h
    obtain ⟨n, hn⟩ : ∃ n, c.toNat = n := ⟨_, rfl⟩
    rcases h with ((((⟨h1, h2⟩ | ⟨h1, h2⟩) | ⟨h1, h2⟩) | h) | h) | h
    · rw [hn] at h1 h2
      rw [← hc, hn]
      interval_cases n <;> decide
    · rw [hn] at h1 h2
      rw [← hc, hn]
      interval_cases n <;> decide
    · rw [hn] at h1 h2
      rw [← hc, hn]
      interval_cases n <;> decide
    · rw [h]; decide
    · rw [h]; decide
    · rw [h]; decide
  · intro h
    have hall : allowedClass.all isAllowedChar = true := by decide
    exact List.all_eq_true.mp hall c h

theorem sanitize_eq_filter (x : Str) :
    sanitize_filename x = x.filter isAllowedChar := by
  induction x with
  | nil => rfl
  | cons c rest ih =>
    by_cases h : isAllowedChar c = true
    · simp [sanitize_filename, List.filter_cons, h, ih]
    · simp [sanitize_filename, List.filter_cons, h, ih]

theorem sanitize_filename_idem (x : Str) :
    sanitize_filename (sanitize_filename x) = sanitize_filename x := by
  induction x with
  | nil => rfl
  | cons c rest ih =>
    by_cases h : isAllowedChar c = true
    · simp [sanitize_filename, h, ih]
    · simp [sanitize_filename, h, ih]

/-! ## Claim C9 -/

/-- C9: for every input string, `sanitize_filename` returns exactly the
characters of the input that lie in the class `[A-Za-z0-9._-]`, kept in
order (a sub-sequence of the input), and it is idempotent. -/
theorem claim_C9 (x : Str) :
    sanitize_filename x = x.filter isAllowedChar
    ∧ List.Sublist (sanitize_filename x) x
    ∧ (∀ c, c ∈ sanitize_filename x ↔ c ∈ x ∧ c ∈ allowedClass)
    ∧ sanitize_filename (sanitize_filename x) = sanitize_filename x := by
  refine ⟨sanitize_eq_filter x, ?_, ?_, sanitize_filename_idem x⟩
  · rw [sanitize_eq_filter]; exact List.filter_sublist x
  · intro c
    rw [sanitize_eq_filter]
    simp [List.mem_filter, isAllowedChar_iff_mem]

/-! ## Claim C2 -/

/-- C2 is refuted: the format option IS applied to records that match the
exact filename.  With filter string "A.TXT" (accepted and unchanged by `-F`
sanitization) and format jpg, the record named "A.TXT" has exactly the
filter's name yet does not survive the loop's tests. -/
theorem claim_C2_counterexample :
    parse_file_option "A.TXT".data = some "A.TXT".data
    ∧ (Photo.mk "A.TXT".data "T".data "2025-01-01".data).name
        = CliOptions.filename ⟨"jpg".data, "A.TXT".data, []⟩
    ∧ record_passes ⟨"jpg".data, "A.TXT".data, []⟩
        ⟨"A.TXT".data, "T".data, "2025-01-01".data⟩ = false := by decide

/-- C2 amended: when the exact-filename option is set, a record survives
filtering if and only if its sanitized name equals the sanitized filter
string exactly (case-sensitive) AND it matches the format option (which
defaults to `all`, in which case name equality alone decides). -/
theorem claim_C2 (opts : CliOptions) (p : Photo) (h : opts.filename ≠ []) :
    record_passes opts p = true ↔
      p.name = opts.filename ∧ matches_format p.name opts.format = true := by
  by_cases hp : p.name = opts.filename
  · simp [record_passes, h, hp]
  · simp [record_passes, h, hp]

/-! ## Helper lemmas for the format filter -/

theorem takeWhile_append_stop (q : Char → Bool) (l l2 : Str)
    (h : ∃ x ∈ l, q x = false) :
    (l ++ l2).takeWhile q = l.takeWhile q := by
  induction l with
  | nil => simp at h
  | cons a l ih =>
    by_cases ha : q a = true
    · obtain ⟨x, hx, hqx⟩ := h
      rcases List.mem_cons.mp hx with rfl | hx'
      · rw [ha] at hqx; cases hqx
      · simp only [List.cons_append, List.takeWhile_cons, ha, ih ⟨x, hx', hqx⟩]
    · have ha' : q a = false := by revert ha; cases q a <;> simp
      simp [List.takeWhile_cons, ha']

theorem takeWhile_append_all (q : Char → Bool) (l l2 : Str)
    (h : ∀ x ∈ l, q x = true) :
    (l ++ l2).takeWhile q = l ++ l2.takeWhile q := by
  induction l with
  | nil => simp
  | cons a l ih =>
    have ha := h a (by simp)
    simp only [List.cons_append, List.takeWhile_cons, ha, if_true,
      ih (fun x hx => h x (by simp [hx]))]

theorem ext_none_of_not_mem (s : Str) (h : '.' ∉ s) :
    ext_after_last_dot s = none := by
  induction s with
  | nil => rfl
  | cons c rest ih =>
    have hc : ¬ c = '.' := fun e => h (by simp [e])
    have hr : '.' ∉ rest := fun m => h (List.mem_cons_of_mem c m)
    simp [ext_after_last_dot, ih hr, hc]

theorem ext_eq_extSpec (s : Str) : ext_after_last_dot s = extSpec s := by
  induction s with
  | nil => rfl
  | cons c rest ih =>
    by_cases hr : '.' ∈ rest
    · have hstop : (rest.reverse ++ [c]).takeWhile notDot
          = rest.reverse.takeWhile notDot :=
        takeWhile_append_stop notDot rest.reverse [c]
          ⟨'.', by simp [hr], by decide⟩
      simp [ext_after_last_dot, ih, extSpec, hr, List.reverse_cons, hstop]
    · have hnone : ext_after_last_dot rest = none := ext_none_of_not_mem rest hr
      by_cases hc : c = '.'
      · have hall : ∀ x ∈ rest.reverse, notDot x = true := by
          intro x hx
          have hxr : x ∈ rest := List.mem_reverse.mp hx
          have : ¬ x = '.' := fun e => hr (e ▸ hxr)
          simp [notDot, this]
        subst hc
        have hdot : notDot '.' = false := by decide
        simp [ext_after_last_dot, hnone, extSpec, List.reverse_cons,
          takeWhile_append_all notDot rest.reverse ['.'] hall, hdot]
      · have : '.' ∉ c :: rest := by
          intro hmem
          rcases List.mem_cons.mp hmem with e | e
          · exact hc e.symm
          · exact hr e
        simp [ext_after_last_dot, hnone, hc, extSpec, this]

theorem matches_format_all (name : Str) :
    matches_format name "all".data = true := by
  simp [matches_format]

theorem matches_format_jpg (name : Str) :
    matches_format name "jpg".data = true ↔
      ∃ e, extSpec name = some e ∧
        (e.map asciiLower = "jpg".data ∨ e.map asciiLower = "jpeg".data) := by
  rw [matches_format, if_neg (by decide : ¬("jpg".data : Str) = "all".data),
    ext_eq_extSpec]
  cases h : extSpec name with
  | none => simp
  | some e =>
    have h1 : "jpg".data.map asciiLower = "jpg".data := by decide
    have h2 : "jpeg".data.map asciiLower = "jpeg".data := by decide
    simp [strcaseeq, h1, h2]

theorem matches_format_dng (name : Str) :
    matches_format name "dng".data = true ↔
      ∃ e, extSpec name = some e ∧ e.map asciiLower = "dng".data := by
  rw [matches_format, if_neg (by decide : ¬("dng".data : Str) = "all".data),
    ext_eq_extSpec]
  cases h : extSpec name with
  | none => simp
  | some e =>
    have h1 : "dng".data.map asciiLower = "dng".data := by decide
    have hne : ¬("dng".data : Str) = "jpg".data := by decide
    simp [strcaseeq, h1, hne]

theorem matches_format_no_dot (name fmt : Str) (hd : '.' ∉ name)
    (hf : fmt ≠ "all".data) :
    matches_format name fmt = false := by
  rw [matches_format, if_neg hf, ext_none_of_not_mem name hd]

theorem record_passes_no_filename (opts : CliOptions) (p : Photo)
    (h : opts.filename = []) :
    record_passes opts p = matches_format p.name opts.format := by
  simp [record_passes, h]

theorem run_attempted_eq_filter (net : Str → Transfer) (baseUrl basePath : Str)
    (opts : CliOptions) (records : List Photo) :
    ∀ fs n, (run_downloads net baseUrl basePath opts records fs n).attempted
      = records.filter (record_passes opts) := by
  induction records with
  | nil => intro fs n; rfl
  | cons p rest ih =>
    intro fs n
    by_cases hp : record_passes opts p = true
    · simp [run_downloads, hp, ih, List.filter_cons]
    · simp [run_downloads, hp, ih, List.filter_cons]

/-! ## Claim C8 -/

/-- C8: with no exact-filename filter, the loop's test is exactly the format
filter; `all` passes everything; `jpg` passes exactly the names whose text
after the last dot is case-insensitively `jpg` or `jpeg`; `dng` likewise for
`dng`; a dot-free name never passes a non-`all` format; and the records
reaching the download stage are the input-order sub-sequence of the decoded
list selected by that test. -/
theorem claim_C8 (opts : CliOptions) (p : Photo) (name : Str)
    (net : Str → Transfer) (baseUrl basePath : Str) (records : List Photo)
    (fs : Fs) (n : Nat) (h : opts.filename = []) :
    record_passes opts p = matches_format p.name opts.format
    ∧ matches_format name "all".data = true
    ∧ (matches_format name "jpg".data = true ↔
        ∃ e, extSpec name = some e ∧
          (e.map asciiLower = "jpg".data ∨ e.map asciiLower = "jpeg".data))
    ∧ (matches_format name "dng".data = true ↔
        ∃ e, extSpec name = some e ∧ e.map asciiLower = "dng".data)
    ∧ ('.' ∉ name → ∀ fmt, fmt ≠ "all".data → matches_format name fmt = false)
    ∧ (run_downloads net baseUrl basePath opts records fs n).attempted
        = records.filter (record_passes opts)
    ∧ List.Sublist (records.filter (record_passes opts)) records :=
  ⟨record_passes_no_filename opts p h,
   matches_format_all name,
   matches_format_jpg name,
   matches_format_dng name,
   fun hd fmt hf => matches_format_no_dot name fmt hd hf,
   run_attempted_eq_filter net baseUrl basePath opts records fs n,
   List.filter_sublist records⟩

/-- Witness for C8 at concrete inputs. -/
theorem claim_C8_witness :
    (record_passes ⟨"jpg".data, [], []⟩ ⟨"A.JPG".data, "T".data, "d".data⟩
        = matches_format "A.JPG".data "jpg".data)
    ∧ matches_format "A.JPG".data "all".data = true :=
  ⟨(claim_C8 ⟨"jpg".data, [], []⟩ ⟨"A.JPG".data, "T".data, "d".data⟩
      "A.JPG".data (fun _ => .success []) [] [] [] [] 0 rfl).1,
   (claim_C8 ⟨"jpg".data, [], []⟩ ⟨"A.JPG".data, "T".data, "d".data⟩
      "A.JPG".data (fun _ => .success []) [] [] [] [] 0 rfl).2.1⟩

/-- Witness for the amended C2 at a concrete input. -/
theorem claim_C2_witness :
    (CliOptions.filename ⟨"jpg".data, "R1.JPG".data, []⟩ ≠ [])
    ∧ (record_passes ⟨"jpg".data, "R1.JPG".data, []⟩
          ⟨"R1.JPG".data, "T".data, "2025-01-01".data⟩ = true ↔
        (Photo.mk "R1.JPG".data "T".data "2025-01-01".data).name
            = CliOptions.filename ⟨"jpg".data, "R1.JPG".data, []⟩
          ∧ matches_format "R1.JPG".data "jpg".data = true) :=
  ⟨by decide, claim_C2 ⟨"jpg".data, "R1.JPG".data, []⟩
    ⟨"R1.JPG".data, "T".data, "2025-01-01".data⟩ (by decide)⟩

/-! ## Claim C5 -/

theorem run_downloaded_eq (net : Str → Transfer) (baseUrl basePath : Str)
    (opts : CliOptions) (records : List Photo) :
    ∀ fs n, (run_downloads net baseUrl basePath opts records fs n).downloaded
      = n + countNonFailed
          (run_downloads net baseUrl basePath opts records fs n).outcomes := by
  induction records with
  | nil => intro fs n; simp [run_downloads, countNonFailed]
  | cons p rest ih =>
    intro fs n
    by_cases hp : record_passes opts p = true
    · by_cases hf : (download_photo net baseUrl p.name p.tag p.date basePath
          fs).outcome = .failed
      · simp [run_downloads, hp, hf, countNonFailed, ih]
      · simp [run_downloads, hp, hf, countNonFailed, ih]
        omega
    · simp [run_downloads, hp, ih]

/-- C5 is refuted: the single counter printed as the number of downloaded
photos also counts records that were skipped because the destination file
already existed.  Here the only record is skipped (its file exists), no
download outcome occurs, yet the reported count is 1. -/
theorem claim_C5_counterexample :
    (run_downloads okNet cameraBaseUrl "/b".data ⟨"all".data, [], []⟩
       [⟨"X.JPG".data, "100RICOH".data, "2025-06-07".data⟩]
       [(dir1, Node.dir), (fp1, Node.file "OLD".data)] 0).downloaded = 1
    ∧ (run_downloads okNet cameraBaseUrl "/b".data ⟨"all".data, [], []⟩
       [⟨"X.JPG".data, "100RICOH".data, "2025-06-07".data⟩]
       [(dir1, Node.dir), (fp1, Node.file "OLD".data)] 0).outcomes
      = [Outcome.skippedExists] := by decide

/-- C5 amended: the end-of-run count reported by `main` equals the number of
records whose `download_photo` call returned success, which conflates the
`Downloaded` and `Skipped(AlreadyExists)` outcomes; only failed records are
excluded, and no separate skipped or failed count is reported. -/
theorem claim_C5 (net : Str → Transfer) (baseUrl basePath : Str)
    (opts : CliOptions) (records : List Photo) (fs : Fs) :
    (run_downloads net baseUrl basePath opts records fs 0).downloaded
      = countNonFailed
          (run_downloads net baseUrl basePath opts records fs 0).outcomes := by
  simpa using run_downloaded_eq net baseUrl basePath opts records fs 0

/-! ## Claim C1 -/

/-- C1 is refuted: with valid options and a reachable base directory, an
index-stage transport failure and an undecodable index body both leave the
process exit code at 0 (the final `return 0` of `main`), not non-zero. -/
theorem claim_C1_counterexample :
    (main_model (.ok ⟨"all".data, [], "/b".data⟩) none true none zeroJunk
       "2099-01-01".data okNet []).exitCode = 0
    ∧ (main_model (.ok ⟨"all".data, [], "/b".data⟩) none true none zeroJunk
       "2099-01-01".data okNet []).phase = RunPhase.indexTransportFailed
    ∧ (main_model (.ok ⟨"all".data, [], "/b".data⟩) none true (some none)
       zeroJunk "2099-01-01".data okNet []).exitCode = 0
    ∧ (main_model (.ok ⟨"all".data, [], "/b".data⟩) none true (some none)
       zeroJunk "2099-01-01".data okNet []).phase = RunPhase.decodeFailed := by
  decide

theorem main_model_exit_cases (opts : CliOptions) (home : Option Str)
    (mk : Bool) (fetch : Option (Option Json)) (junk : Nat → Photo)
    (today : Str) (net : Str → Transfer) (fs : Fs) :
    (main_model (.ok opts) home mk fetch junk today net fs).phase
        = RunPhase.notStarted
    ∨ (main_model (.ok opts) home mk fetch junk today net fs).exitCode = 0 := by
  simp only [main_model]
  split
  · exact Or.inl rfl
  · split
    · exact Or.inr rfl
    · split
      · exact Or.inr rfl
      · exact Or.inl rfl

theorem main_model_fetch_none_phase (opts : CliOptions) (home : Option Str)
    (mk : Bool) (junk : Nat → Photo) (today : Str) (net : Str → Transfer)
    (fs : Fs) :
    (main_model (.ok opts) home mk none junk today net fs).phase
        = RunPhase.notStarted
    ∨ (main_model (.ok opts) home mk none junk today net fs).phase
        = RunPhase.indexTransportFailed := by
  simp only [main_model]
  split
  · exact Or.inl rfl
  · split
    · exact Or.inr rfl
    · split
      · exact Or.inr rfl
      · exact Or.inl rfl

theorem main_model_decode_fail_phase (opts : CliOptions) (home : Option Str)
    (mk : Bool) (body : Option Json) (junk : Nat → Photo) (today : Str)
    (net : Str → Transfer) (fs : Fs)
    (h : parse_photos_json junk today body = none) :
    (main_model (.ok opts) home mk (some body) junk today net fs).phase
        = RunPhase.notStarted
    ∨ (main_model (.ok opts) home mk (some body) junk today net fs).phase
        = RunPhase.decodeFailed := by
  simp only [main_model]
  split
  · exact Or.inl rfl
  · split
    · exact Or.inr (by simp [main_phase, h])
    · split
      · exact Or.inr (by simp [main_phase, h])
      · exact Or.inl rfl

/-- C1 amended: an index-stage transport failure or an undecodable index
document (not JSON, or no `dirs` array) makes the run report the error and
skip the download phase, but the process still exits 0, not non-zero; and a
run that completes exits 0 even when individual photo downloads fail. -/
theorem claim_C1 (opts : CliOptions) (home : Option Str) (mk : Bool)
    (fetch : Option (Option Json)) (body : Option Json) (junk : Nat → Photo)
    (today : Str) (net : Str → Transfer) (fs : Fs) :
    ((main_model (.ok opts) home mk none junk today net fs).phase
        = RunPhase.notStarted
      ∨ (main_model (.ok opts) home mk none junk today net fs).phase
        = RunPhase.indexTransportFailed)
    ∧ (parse_photos_json junk today body = none →
        (main_model (.ok opts) home mk (some body) junk today net fs).phase
            = RunPhase.notStarted
        ∨ (main_model (.ok opts) home mk (some body) junk today net fs).phase
            = RunPhase.decodeFailed)
    ∧ ((main_model (.ok opts) home mk fetch junk today net fs).phase
          = RunPhase.indexTransportFailed →
        (main_model (.ok opts) home mk fetch junk today net fs).exitCode = 0)
    ∧ ((main_model (.ok opts) home mk fetch junk today net fs).phase
          = RunPhase.decodeFailed →
        (main_model (.ok opts) home mk fetch junk today net fs).exitCode = 0)
    ∧ (∀ s, (main_model (.ok opts) home mk fetch junk today net fs).phase
          = RunPhase.completed s →
        (main_model (.ok opts) home mk fetch junk today net fs).exitCode = 0) := by
  refine ⟨main_model_fetch_none_phase opts home mk junk today net fs,
    fun h => main_model_decode_fail_phase opts home mk body junk today net fs h,
    ?_, ?_, ?_⟩
  · intro hph
    rcases main_model_exit_cases opts home mk fetch junk today net fs with h | h
    · rw [hph] at h; simp at h
    · exact h
  · intro hph
    rcases main_model_exit_cases opts home mk fetch junk today net fs with h | h
    · rw [hph] at h; simp at h
    · exact h
  · intro s hph
    rcases main_model_exit_cases opts home mk fetch junk today net fs with h | h
    · rw [hph] at h; simp at h
    · exact h

/-- Witness for the amended C1: a concrete run whose index fetch fails at
the transport layer exits 0, and a concrete run whose body `cJSON_Parse`
rejects never reaches the download phase. -/
theorem claim_C1_witness :
    (main_model (.ok ⟨"all".data, [], "/b".data⟩) none true none zeroJunk
        "2099-01-01".data okNet []).exitCode = 0
    ∧ ((main_model (.ok ⟨"all".data, [], "/b".data⟩) none true (some none)
          zeroJunk "2099-01-01".data okNet []).phase = RunPhase.notStarted
       ∨ (main_model (.ok ⟨"all".data, [], "/b".data⟩) none true (some none)
          zeroJunk "2099-01-01".data okNet []).phase = RunPhase.decodeFailed) :=
  ⟨(claim_C1 ⟨"all".data, [], "/b".data⟩ none true none none zeroJunk
      "2099-01-01".data okNet []).2.2.1 (by decide),
   (claim_C1 ⟨"all".data, [], "/b".data⟩ none true (some none) none zeroJunk
      "2099-01-01".data okNet []).2.1 (by decide)⟩

/-! ## Claim C3 -/

/-- C3 exhibits the decode bug: a file entry with no `"n"` string is not
dropped; it is committed with the slot's uninitialised memory as its `name`
and `tag` (modelled by the arbitrary slot content `badJunk`, here containing
characters outside `[A-Za-z0-9._-]`). -/
theorem claim_C3 :
    parse_photos_json badJunk "2099-01-01".data (some noNDoc)
      = some [⟨"!!".data, "??".data, "2025-06-07".data⟩]
    ∧ isAllowedChar '!' = false
    ∧ '!' ∈ ("!!".data : Str) := by decide

/-! ## Helper lemmas for timestamp scanning and date formatting -/

theorem takeDigits_length (w : Nat) : ∀ s : Str, (takeDigits w s).1.length ≤ w := by
  induction w with
  | zero => intro s; simp [takeDigits]
  | succ w ih =>
    intro s
    cases s with
    | nil => simp [takeDigits]
    | cons c rest =>
      by_cases h : isDigitChar c = true
      · simpa [takeDigits, h] using ih rest
      · simp [takeDigits, h]

theorem takeDigits_digits (w : Nat) :
    ∀ s : Str, ∀ c ∈ (takeDigits w s).1, isDigitChar c = true := by
  induction w with
  | zero => intro s c hc; simp [takeDigits] at hc
  | succ w ih =>
    intro s c hc
    cases s with
    | nil => simp [takeDigits] at hc
    | cons a rest =>
      by_cases h : isDigitChar a = true
      · simp [takeDigits, h] at hc
        rcases hc with rfl | hc
        · exact h
        · exact ih rest c hc
      · simp [takeDigits, h] at hc

theorem digitsToNat_foldl_lt (ds : Str) (hds : ∀ c ∈ ds, isDigitChar c = true) :
    ∀ acc : Nat, ds.foldl (fun a c => a * 10 + (c.toNat - 48)) acc
      < (acc + 1) * 10 ^ ds.length := by
  induction ds with
  | nil => intro acc; simp
  | cons c rest ih =>
    intro acc
    have hc : isDigitChar c = true := hds c (by simp)
    have hd : c.toNat - 48 ≤ 9 := by
      simp only [isDigitChar, Bool.and_eq_true, decide_eq_true_eq] at hc
      omega
    have h1 := ih (fun x hx => hds x (by simp [hx])) (acc * 10 + (c.toNat - 48))
    have h2 : (acc * 10 + (c.toNat - 48) + 1) * 10 ^ rest.length
        ≤ (acc + 1) * 10 ^ (rest.length + 1) := by
      have e : 10 ^ (rest.length + 1) = 10 ^ rest.length * 10 := pow_succ 10 _
      rw [e]
      calc (acc * 10 + (c.toNat - 48) + 1) * 10 ^ rest.length
          ≤ ((acc + 1) * 10) * 10 ^ rest.length :=
            Nat.mul_le_mul_right _ (by omega)
        _ = (acc + 1) * (10 ^ rest.length * 10) := by ring
    calc List.foldl (fun a c => a * 10 + (c.toNat - 48)) acc (c :: rest)
        = List.foldl (fun a c => a * 10 + (c.toNat - 48))
            (acc * 10 + (c.toNat - 48)) rest := rfl
      _ < (acc * 10 + (c.toNat - 48) + 1) * 10 ^ rest.length := h1
      _ ≤ (acc + 1) * 10 ^ (rest.length + 1) := h2
      _ = (acc + 1) * 10 ^ (c :: rest).length := by simp

theorem digitsToNat_lt (ds : Str) (hds : ∀ c ∈ ds, isDigitChar c = true) :
    digitsToNat ds < 10 ^ ds.length := by
  simpa [digitsToNat] using digitsToNat_foldl_lt ds hds 0

theorem digitsToNat_lt_of_le (ds : Str) (w : Nat)
    (hds : ∀ c ∈ ds, isDigitChar c = true) (hl : ds.length ≤ w) :
    digitsToNat ds < 10 ^ w :=
  lt_of_lt_of_le (digitsToNat_lt ds hds) (Nat.pow_le_pow_right (by omega) hl)

theorem scanInt_nonneg_bound (w : Nat) (s : Str) (v : Int) (r : Str)
    (h : scanInt w s = some (v, r)) (hv : 0 ≤ v) : v.toNat < 10 ^ w := by
  unfold scanInt at h
  split at h
  · cases h
  · rename_i x0 c rest hrest
    split at h
    · split at h
      · cases h
      · simp only [Option.some.injEq, Prod.mk.injEq] at h
        obtain ⟨hv', _⟩ := h
        have h10 : (1 : Nat) ≤ 10 ^ w := Nat.one_le_pow _ _ (by omega)
        omega
    · split at h
      · split at h
        · cases h
        · simp only [Option.some.injEq, Prod.mk.injEq] at h
          obtain ⟨hv', _⟩ := h
          have hb : digitsToNat (takeDigits (w - 1) rest).1 < 10 ^ w :=
            digitsToNat_lt_of_le _ w (takeDigits_digits (w - 1) rest)
              (le_trans (takeDigits_length (w - 1) rest) (by omega))
          omega
      · split at h
        · cases h
        · simp only [Option.some.injEq, Prod.mk.injEq] at h
          obtain ⟨hv', _⟩ := h
          have hb : digitsToNat (takeDigits w (c :: rest)).1 < 10 ^ w :=
            digitsToNat_lt_of_le _ w (takeDigits_digits w (c :: rest))
              (takeDigits_length w (c :: rest))
          omega

theorem natDigitsAux_length (fuel : Nat) :
    ∀ n k : Nat, n < 10 ^ k → (natDigitsAux fuel n).length ≤ k := by
  induction fuel with
  | zero => intro n k _; simp [natDigitsAux]
  | succ fuel ih =>
    intro n k h
    by_cases hn : n = 0
    · simp [natDigitsAux, hn]
    · have hk : k ≠ 0 := by
        rintro rfl
        simp at h
        omega
      obtain ⟨k', rfl⟩ : ∃ k', k = k' + 1 := ⟨k - 1, by omega⟩
      have hdiv : n / 10 < 10 ^ k' := by
        have e : 10 ^ (k' + 1) = 10 ^ k' * 10 := pow_succ 10 k'
        rw [e] at h
        omega
      have := ih (n / 10) k' hdiv
      simp [natDigitsAux, hn]
      omega

theorem natDigitsAux_digits (fuel : Nat) :
    ∀ n : Nat, ∀ c ∈ natDigitsAux fuel n, isDigitChar c = true := by
  induction fuel with
  | zero => intro n c hc; simp [natDigitsAux] at hc
  | succ fuel ih =>
    intro n c hc
    by_cases hn : n = 0
    · simp [natDigitsAux, hn] at hc
    · simp only [natDigitsAux, if_neg hn] at hc
      rcases List.mem_append.mp hc with h | h
      · exact ih _ c h
      · simp at h
        subst h
        obtain ⟨m, hm⟩ : ∃ m, n % 10 = m := ⟨_, rfl⟩
        have hlt : m < 10 := hm ▸ Nat.mod_lt _ (by omega)
        rw [digitChar, hm]
        interval_cases m <;> decide

theorem natDigits_length (n k : Nat) (h : n < 10 ^ k) (hk : 1 ≤ k) :
    (natDigits n).length ≤ k := by
  unfold natDigits
  by_cases hn : n = 0
  · simp [hn]; omega
  · rw [if_neg hn]
    exact natDigitsAux_length (n + 1) n k h

theorem natDigits_digits (n : Nat) : ∀ c ∈ natDigits n, isDigitChar c = true := by
  unfold natDigits
  by_cases hn : n = 0
  · simp [hn]
    decide
  · rw [if_neg hn]
    exact natDigitsAux_digits (n + 1) n

theorem padZero_length (w : Nat) (ds : Str) (h : ds.length ≤ w) :
    (padZero w ds).length = w := by
  simp [padZero]
  omega

theorem padZero_digits (w : Nat) (ds : Str)
    (h : ∀ c ∈ ds, isDigitChar c = true) :
    ∀ c ∈ padZero w ds, isDigitChar c = true := by
  intro c hc
  rcases List.mem_append.mp hc with h0 | h1
  · have := List.eq_of_mem_replicate h0
    subst this
    decide
  · exact h c h1

theorem fmtIntPad_nonneg_spec (w : Nat) (v : Int) (hv : 0 ≤ v)
    (hb : v.toNat < 10 ^ w) (hw : 1 ≤ w) :
    (fmtIntPad w v).length = w ∧ ∀ c ∈ fmtIntPad w v, isDigitChar c = true := by
  unfold fmtIntPad
  rw [if_neg (by omega)]
  exact ⟨padZero_length w _ (natDigits_length _ w hb hw),
    padZero_digits w _ (natDigits_digits _)⟩

theorem exists_pair (l : Str) (h : l.length = 2) : ∃ a b, l = [a, b] := by
  rcases l with _ | ⟨a, l⟩
  · simp at h
  rcases l with _ | ⟨b, l⟩
  · simp at h
  rcases l with _ | ⟨c, l⟩
  · exact ⟨a, b, rfl⟩
  · simp at h

theorem exists_quad (l : Str) (h : l.length = 4) : ∃ a b c d, l = [a, b, c, d] := by
  rcases l with _ | ⟨a, l⟩
  · simp at h
  rcases l with _ | ⟨b, l⟩
  · simp at h
  rcases l with _ | ⟨c, l⟩
  · simp at h
  rcases l with _ | ⟨d, l⟩
  · simp at h
  rcases l with _ | ⟨e, l⟩
  · exact ⟨a, b, c, d, rfl⟩
  · simp at h

theorem matchesDateRe_parts (y mo dd : Str)
    (hy : y.length = 4) (hmo : mo.length = 2) (hdd : dd.length = 2)
    (hyd : ∀ c ∈ y, isDigitChar c = true)
    (hmod : ∀ c ∈ mo, isDigitChar c = true)
    (hddd : ∀ c ∈ dd, isDigitChar c = true) :
    matchesDateRe (y ++ ['-'] ++ mo ++ ['-'] ++ dd) = true := by
  obtain ⟨a, b, c, d, rfl⟩ := exists_quad y hy
  obtain ⟨e, f, rfl⟩ := exists_pair mo hmo
  obtain ⟨g, h, rfl⟩ := exists_pair dd hdd
  show matchesDateRe [a, b, c, d, '-', e, f, '-', g, h] = true
  simp only [matchesDateRe]
  simp [hyd a (by simp), hyd b (by simp), hyd c (by simp), hyd d (by simp),
    hmod e (by simp), hmod f (by simp), hddd g (by simp), hddd h (by simp)]

theorem scan_timestamp_cases (ts : Str) :
    (scan_timestamp ts).count < 3 ∨
    ∃ y s1 s2 mo s3 s4 md r,
      scanInt 4 ts = some (y, s1) ∧ scanLit '-' s1 = some s2 ∧
      scanInt 2 s2 = some (mo, s3) ∧ scanLit '-' s3 = some s4 ∧
      scanInt 2 s4 = some (md, r) ∧ scan_timestamp ts = ⟨3, y, mo, md⟩ := by
  cases h1 : scanInt 4 ts with
  | none => left; simp [scan_timestamp, h1]
  | some p1 =>
    obtain ⟨y, s1⟩ := p1
    cases h2 : scanLit '-' s1 with
    | none => left; simp [scan_timestamp, h1, h2]
    | some s2 =>
      cases h3 : scanInt 2 s2 with
      | none => left; simp [scan_timestamp, h1, h2, h3]
      | some p3 =>
        obtain ⟨mo, s3⟩ := p3
        cases h4 : scanLit '-' s3 with
        | none => left; simp [scan_timestamp, h1, h2, h3, h4]
        | some s4 =>
          cases h5 : scanInt 2 s4 with
          | none => left; simp [scan_timestamp, h1, h2, h3, h4, h5]
          | some p5 =>
            obtain ⟨md, r⟩ := p5
            right
            refine ⟨y, s1, s2, mo, s3, s4, md, r, ?_, ?_, ?_, ?_, ?_, ?_⟩ <;>
              first
                | rfl
                | assumption
                | simp [scan_timestamp, h1, h2, h3, h4, h5]

theorem ttdf_fallback (ts today : Str) (h : (scan_timestamp ts).count < 3) :
    timestamp_to_date_folder ts today = today := by
  have h' : ¬ 3 ≤ (scan_timestamp ts).count := by omega
  simp [timestamp_to_date_folder, h']

theorem ttdf_regex (ts today : Str)
    (htoday : matchesDateRe today = true)
    (hnn : 3 ≤ (scan_timestamp ts).count →
      0 ≤ (scan_timestamp ts).year ∧ 0 ≤ (scan_timestamp ts).mon ∧
      0 ≤ (scan_timestamp ts).mday) :
    matchesDateRe (timestamp_to_date_folder ts today) = true := by
  rcases scan_timestamp_cases ts with h | ⟨y, s1, s2, mo, s3, s4, md, r,
    h1, h2, h3, h4, h5, heq⟩
  · rw [ttdf_fallback ts today h]
    exact htoday
  · obtain ⟨hy, hm, hd⟩ := hnn (by rw [heq])
    rw [heq] at hy hm hd
    have by4 : y.toNat < 10 ^ 4 := scanInt_nonneg_bound 4 ts y s1 h1 hy
    have bm2 : mo.toNat < 10 ^ 2 := scanInt_nonneg_bound 2 s2 mo s3 h3 hm
    have bd2 : md.toNat < 10 ^ 2 := scanInt_nonneg_bound 2 s4 md r h5 hd
    obtain ⟨ly, dy⟩ := fmtIntPad_nonneg_spec 4 y hy by4 (by omega)
    obtain ⟨lm, dm⟩ := fmtIntPad_nonneg_spec 2 mo hm bm2 (by omega)
    obtain ⟨ld, dd⟩ := fmtIntPad_nonneg_spec 2 md hd bd2 (by omega)
    have hrw : timestamp_to_date_folder ts today
        = fmtIntPad 4 y ++ ['-'] ++ fmtIntPad 2 mo ++ ['-'] ++ fmtIntPad 2 md := by
      simp [timestamp_to_date_folder, heq]
    rw [hrw]
    exact matchesDateRe_parts _ _ _ ly lm ld dy dm dd

/-! ## Claim C4 -/

theorem file_date_regex (today : Str) (file : Json)
    (htoday : matchesDateRe today = true) (hok : fileDateOk file = true) :
    matchesDateRe (file_date today file) = true := by
  unfold file_date
  cases hd : getStr file "d".data with
  | none => exact htoday
  | some dv =>
    apply ttdf_regex dv today htoday
    intro h3
    have hok' : (if 3 ≤ (scan_timestamp dv).count then
        decide (0 ≤ (scan_timestamp dv).year) &&
        decide (0 ≤ (scan_timestamp dv).mon) &&
        decide (0 ≤ (scan_timestamp dv).mday)
      else true) = true := by
      simpa [fileDateOk, hd] using hok
    rw [if_pos h3] at hok'
    simp only [Bool.and_eq_true, decide_eq_true_eq] at hok'
    exact ⟨hok'.1.1, hok'.1.2, hok'.2⟩

theorem process_file_cases (today : Str) (junk : Nat → Photo) (tagStr : Str)
    (st : List Photo × Photo) (file : Json) :
    (process_file today junk tagStr st file).1 = st.1 ∨
    ∃ q : Photo, q.date = file_date today file ∧
      (process_file today junk tagStr st file).1 = st.1 ++ [q] := by
  cases hn : getStr file "n".data with
  | none =>
    right
    refine ⟨⟨st.2.name, st.2.tag, file_date today file⟩, rfl, ?_⟩
    simp [process_file, hn]
  | some nv =>
    by_cases hnm : sanitize_filename (nv.take 255) = []
    · left
      simp [process_file, hn, hnm]
    · right
      refine ⟨⟨sanitize_filename (nv.take 255),
        sanitize_filename (tagStr.take 255), file_date today file⟩, rfl, ?_⟩
      simp [process_file, hn, hnm]

theorem process_file_dates (today : Str) (junk : Nat → Photo) (tagStr : Str)
    (st : List Photo × Photo) (file : Json)
    (htoday : matchesDateRe today = true)
    (hfile : fileDateOk file = true)
    (hinv : ∀ p ∈ st.1, matchesDateRe p.date = true) :
    ∀ p ∈ (process_file today junk tagStr st file).1,
      matchesDateRe p.date = true := by
  intro p hp
  rcases process_file_cases today junk tagStr st file with h | ⟨q, hqd, h⟩
  · rw [h] at hp
    exact hinv p hp
  · rw [h] at hp
    rcases List.mem_append.mp hp with h1 | h1
    · exact hinv p h1
    · simp at h1
      subst h1
      rw [hqd]
      exact file_date_regex today file htoday hfile

theorem foldl_files_dates (today : Str) (junk : Nat → Photo) (tagStr : Str)
    (files : List Json) (htoday : matchesDateRe today = true)
    (hfiles : ∀ f ∈ files, fileDateOk f = true) :
    ∀ st : List Photo × Photo, (∀ p ∈ st.1, matchesDateRe p.date = true) →
      ∀ p ∈ (files.foldl (process_file today junk tagStr) st).1,
        matchesDateRe p.date = true := by
  induction files with
  | nil => intro st h; simpa using h
  | cons f fl ih =>
    intro st h
    rw [List.foldl_cons]
    exact ih (fun g hg => hfiles g (by simp [hg])) _
      (process_file_dates today junk tagStr st f htoday (hfiles f (by simp)) h)

theorem process_dir_dates (today : Str) (junk : Nat → Photo)
    (st : List Photo × Photo) (dir : Json)
    (htoday : matchesDateRe today = true)
    (hdir : dirDatesOk dir = true)
    (hinv : ∀ p ∈ st.1, matchesDateRe p.date = true) :
    ∀ p ∈ (process_dir today junk st dir).1, matchesDateRe p.date = true := by
  cases hn : getStr dir "name".data with
  | none =>
    have e : process_dir today junk st dir = st := by simp [process_dir, hn]
    rw [e]
    exact hinv
  | some tagStr =>
    cases hf : (getItem dir "files".data).bind Json.asArray with
    | none =>
      have e : process_dir today junk st dir = st := by simp [process_dir, hn, hf]
      rw [e]
      exact hinv
    | some files =>
      have e : process_dir today junk st dir
          = files.foldl (process_file today junk tagStr) st := by
        simp [process_dir, hn, hf]
      rw [e]
      refine foldl_files_dates today junk tagStr files htoday ?_ st hinv
      intro f hfm
      have hall : files.all fileDateOk = true := by
        simpa [dirDatesOk, hn, hf] using hdir
      exact List.all_eq_true.mp hall f hfm

theorem foldl_dirs_dates (today : Str) (junk : Nat → Photo) (dirs : List Json)
    (htoday : matchesDateRe today = true)
    (hdirs : ∀ d ∈ dirs, dirDatesOk d = true) :
    ∀ st : List Photo × Photo, (∀ p ∈ st.1, matchesDateRe p.date = true) →
      ∀ p ∈ (dirs.foldl (process_dir today junk) st).1,
        matchesDateRe p.date = true := by
  induction dirs with
  | nil => intro st h; simpa using h
  | cons d dl ih =>
    intro st h
    rw [List.foldl_cons]
    exact ih (fun g hg => hdirs g (by simp [hg])) _
      (process_dir_dates today junk st d htoday (hdirs d (by simp)) h)

/-- C4 is refuted as a universal statement: a timestamp with negative scanned
components produces the date `-001-01-01`, which does not match
`^\d{4}-\d{2}-\d{2}$`, while the current-date fallback (here `2099-01-01`)
does. -/
theorem claim_C4_counterexample :
    parse_photos_json zeroJunk "2099-01-01".data (some negDoc)
      = some [⟨"X.JPG".data, "100RICOH".data, "-001-01-01".data⟩]
    ∧ matchesDateRe "-001-01-01".data = false
    ∧ matchesDateRe "2099-01-01".data = true := by decide

/-- C4 amended: every record produced by decoding has a date matching
`^\d{4}-\d{2}-\d{2}$` provided the current local date does and no timestamp
in the document scans to a negative year, month or day component (the
unchecked `sscanf` values are printed as-is, so a minus sign in `d` is the
one escape).  `d = "2025-06-07T09:32:40"` still yields `2025-06-07`, and a
timestamp with fewer than three extractable components still falls back to
the current local date. -/
theorem claim_C4 (junk : Nat → Photo) (today : Str) (input : Option Json)
    (l : List Photo)
    (hl : parse_photos_json junk today input = some l)
    (htoday : matchesDateRe today = true)
    (hdoc : docDatesOk input = true) :
    (∀ p ∈ l, matchesDateRe p.date = true)
    ∧ (∀ ts, (scan_timestamp ts).count < 3 →
        timestamp_to_date_folder ts today = today)
    ∧ timestamp_to_date_folder "2025-06-07T09:32:40".data today
        = "2025-06-07".data := by
  refine ⟨?_, fun ts h => ttdf_fallback ts today h, rfl⟩
  cases input with
  | none => simp [parse_photos_json] at hl
  | some json =>
    simp only [parse_photos_json] at hl
    split at hl
    · cases hl
    · rename_i dirs hd
      simp only [Option.some.injEq] at hl
      subst hl
      have hdirs : ∀ d ∈ dirs, dirDatesOk d = true := by
        have hall : dirs.all dirDatesOk = true := by
          simpa [docDatesOk, hd] using hdoc
        exact fun d hdm => List.all_eq_true.mp hall d hdm
      exact foldl_dirs_dates today junk dirs htoday hdirs ([], junk 0) (by simp)

/-- Witness for the amended C4 at the concrete end-to-end index document. -/
theorem claim_C4_witness :
    timestamp_to_date_folder "2025-06-07T09:32:40".data "2099-01-01".data
      = "2025-06-07".data :=
  (claim_C4 zeroJunk "2099-01-01".data (some specDoc)
    [⟨"R0001234.JPG".data, "100RICOH".data, "2025-06-07".data⟩]
    (by decide) (by decide) (by decide)).2.2

/-! ## Claim C10 -/

theorem fileDropped_iff (f : Json) :
    fileDropped f = true ↔
      ∃ mv, getStr f "n".data = some mv
        ∧ sanitize_filename (mv.take 255) = [] := by
  cases hn : getStr f "n".data with
  | none => simp [fileDropped, hn]
  | some mv => simp [fileDropped, hn]

theorem process_file_length (today : Str) (junk : Nat → Photo) (tagStr : Str)
    (st : List Photo × Photo) (file : Json) :
    (process_file today junk tagStr st file).1.length
      = st.1.length + (if fileDropped file = true then 0 else 1) := by
  cases hn : getStr file "n".data with
  | none => simp [process_file, fileDropped, hn]
  | some nv =>
    by_cases hnm : sanitize_filename (nv.take 255) = []
    · simp [process_file, fileDropped, hn, hnm]
    · simp [process_file, fileDropped, hn, hnm]

theorem foldl_files_length (today : Str) (junk : Nat → Photo) (tagStr : Str)
    (files : List Json) :
    ∀ st : List Photo × Photo,
      (files.foldl (process_file today junk tagStr) st).1.length
        = st.1.length + (files.filter (fun f => !fileDropped f)).length := by
  induction files with
  | nil => intro st; simp
  | cons f fl ih =>
    intro st
    rw [List.foldl_cons, ih, process_file_length, List.filter_cons]
    by_cases h : fileDropped f = true
    · simp [h]
    · simp [h]
      omega

theorem process_file_empty_tag (today : Str) (junk : Nat → Photo)
    (tagStr : Str) (st : List Photo × Photo) (file : Json) (nv : Str)
    (hn : getStr file "n".data = some nv)
    (hname : sanitize_filename (nv.take 255) ≠ [])
    (htag : sanitize_filename (tagStr.take 255) = []) :
    (process_file today junk tagStr st file).1
      = st.1 ++ [⟨sanitize_filename (nv.take 255), [],
          file_date today file⟩] := by
  simp [process_file, hn, hname, htag]

theorem mk_url_empty_tag (baseUrl name : Str)
    (hlen : (baseUrl ++ "/v1/photos//".data ++ name).length ≤ 511) :
    mk_url baseUrl [] name = baseUrl ++ "/v1/photos//".data ++ name := by
  unfold mk_url
  have e : baseUrl ++ "/v1/photos/".data ++ ([] : Str) ++ ['/'] ++ name
      = baseUrl ++ "/v1/photos//".data ++ name := by
    simp only [List.append_nil, List.append_assoc]
    rfl
  rw [e]
  exact List.take_of_length_le hlen

/-- C10: in index decoding only an empty sanitized name drops a file entry
(the record count is the number of non-dropped entries, and a dropped entry
is exactly one whose `"n"` string sanitizes to empty); a record whose tag
sanitizes to the empty string is still committed, with an empty `tag`
field; and the download URL built for an empty tag is
`{base_url}/v1/photos//{name}`, with an empty path segment between the
slashes. -/
theorem claim_C10 (today : Str) (junk : Nat → Photo)
    (tagStr baseUrl name : Str) (st : List Photo × Photo) (file : Json)
    (nv : Str)
    (hn : getStr file "n".data = some nv)
    (hname : sanitize_filename (nv.take 255) ≠ [])
    (htag : sanitize_filename (tagStr.take 255) = [])
    (hlen : (baseUrl ++ "/v1/photos//".data ++ name).length ≤ 511) :
    (∀ f : Json, fileDropped f = true ↔
      ∃ mv, getStr f "n".data = some mv
        ∧ sanitize_filename (mv.take 255) = [])
    ∧ (∀ files : List Json, ∀ st' : List Photo × Photo,
        (files.foldl (process_file today junk tagStr) st').1.length
          = st'.1.length + (files.filter (fun f => !fileDropped f)).length)
    ∧ (process_file today junk tagStr st file).1
        = st.1 ++ [⟨sanitize_filename (nv.take 255), [],
            file_date today file⟩]
    ∧ mk_url baseUrl [] name = baseUrl ++ "/v1/photos//".data ++ name :=
  ⟨fileDropped_iff,
   fun files st' => foldl_files_length today junk tagStr files st',
   process_file_empty_tag today junk tagStr st file nv hn hname htag,
   mk_url_empty_tag baseUrl name hlen⟩

/-- Witness for C10: a directory label `###` sanitizes to the empty string,
its record is kept with an empty tag, and the URL gets the doubled slash. -/
theorem claim_C10_witness :
    (process_file "2099-01-01".data zeroJunk "###".data ([], zeroJunk 0)
        emptyTagFile).1
      = [] ++ [⟨sanitize_filename ("X.JPG".data.take 255), [],
          file_date "2099-01-01".data emptyTagFile⟩]
    ∧ mk_url cameraBaseUrl [] "X.JPG".data
        = cameraBaseUrl ++ "/v1/photos//".data ++ "X.JPG".data :=
  ⟨(claim_C10 "2099-01-01".data zeroJunk "###".data cameraBaseUrl
      "X.JPG".data ([], zeroJunk 0) emptyTagFile "X.JPG".data rfl
      (by decide) (by decide) (by decide)).2.2.1,
   (claim_C10 "2099-01-01".data zeroJunk "###".data cameraBaseUrl
      "X.JPG".data ([], zeroJunk 0) emptyTagFile "X.JPG".data rfl
      (by decide) (by decide) (by decide)).2.2.2⟩

/-! ## Helper lemmas about the filesystem model -/

theorem fsLookup_fsWrite (fs : Fs) (p q : Str) (nd : Node) :
    fsLookup (fsWrite fs p nd) q = if q = p then some nd else fsLookup fs q := by
  induction fs with
  | nil =>
    by_cases h : q = p
    · simp [fsWrite, fsLookup, h]
    · have h' : ¬ p = q := fun e => h e.symm
      simp [fsWrite, fsLookup, h, h']
  | cons e rest ih =>
    obtain ⟨k, old⟩ := e
    by_cases hkp : k = p
    · subst hkp
      by_cases hq : q = k
      · simp [fsWrite, fsLookup, hq]
      · have hq' : ¬ k = q := fun e => hq e.symm
        simp [fsWrite, fsLookup, hq, hq']
    · have step : fsWrite ((k, old) :: rest) p nd = (k, old) :: fsWrite rest p nd := by
        simp [fsWrite, hkp]
      rw [step]
      by_cases hkq : k = q
      · subst hkq
        simp [fsLookup, hkp]
      · simp [fsLookup, hkq, ih]

theorem fsLookup_fsRemove_self (fs : Fs) (p : Str) :
    fsLookup (fsRemove fs p) p = none := by
  induction fs with
  | nil => rfl
  | cons e rest ih =>
    obtain ⟨k, nd⟩ := e
    by_cases h : k = p
    · simpa [fsRemove, List.filter_cons, h] using ih
    · have hstep : fsRemove ((k, nd) :: rest) p = (k, nd) :: fsRemove rest p := by
        simp [fsRemove, List.filter_cons, h]
      rw [hstep]
      simp [fsLookup, h, ih]

/-! ## Claim C6 -/

/-- C6: when the destination file (and its directory) already exist, and the
path validations that guard the existence check pass, `download_photo`
reports the skip outcome, performs no network request, and returns the
filesystem entirely unchanged. -/
theorem claim_C6 (net : Str → Transfer) (baseUrl name tag dateF basePath : Str)
    (fs : Fs)
    (hb : validate_path basePath = true)
    (hd : validate_path (full_dir_path basePath dateF) = true)
    (hdir : fsExists fs (full_dir_path basePath dateF) = true)
    (hfile : fsExists fs (file_path basePath dateF name) = true) :
    download_photo net baseUrl name tag dateF basePath fs
      = ⟨fs, .skippedExists, []⟩ := by
  simp [download_photo, hb, hd, hdir, hfile]

/-- Witness for C6: a concrete filesystem already holding the destination
file `/b/2025-06-07/X.JPG`. -/
theorem claim_C6_witness :
    validate_path "/b".data = true
    ∧ validate_path (full_dir_path "/b".data "2025-06-07".data) = true
    ∧ fsExists [(dir1, Node.dir), (fp1, Node.file "OLD".data)]
        (full_dir_path "/b".data "2025-06-07".data) = true
    ∧ fsExists [(dir1, Node.dir), (fp1, Node.file "OLD".data)]
        (file_path "/b".data "2025-06-07".data "X.JPG".data) = true
    ∧ download_photo okNet cameraBaseUrl "X.JPG".data "100RICOH".data
        "2025-06-07".data "/b".data [(dir1, Node.dir), (fp1, Node.file "OLD".data)]
      = ⟨[(dir1, Node.dir), (fp1, Node.file "OLD".data)], .skippedExists, []⟩ :=
  ⟨by decide, by decide, by decide, by decide,
   claim_C6 okNet cameraBaseUrl "X.JPG".data "100RICOH".data "2025-06-07".data
     "/b".data [(dir1, Node.dir), (fp1, Node.file "OLD".data)]
     (by decide) (by decide) (by decide) (by decide)⟩

/-! ## Claim C7 -/

theorem download_photo_failMid (net : Str → Transfer)
    (baseUrl nm tag dateF basePath w : Str) (fs : Fs)
    (hb : validate_path basePath = true)
    (hd : validate_path (full_dir_path basePath dateF) = true)
    (hnew : fsExists fs (file_path basePath dateF nm) = false)
    (hne : file_path basePath dateF nm ≠ full_dir_path basePath dateF)
    (hmid : net (mk_url baseUrl tag nm) = .failMid w) :
    ∃ fs2, download_photo net baseUrl nm tag dateF basePath fs
      = ⟨fsRemove fs2 (file_path basePath dateF nm), .failed,
         [mk_url baseUrl tag nm]⟩ := by
  by_cases hdir : fsExists fs (full_dir_path basePath dateF) = true
  · refine ⟨fsWrite (fsWrite fs (file_path basePath dateF nm) (.file []))
      (file_path basePath dateF nm) (.file w), ?_⟩
    simp [download_photo, hb, hd, hdir, hnew, hmid]
  · have h2 : fsExists (fsWrite fs (full_dir_path basePath dateF) .dir)
        (file_path basePath dateF nm) = false := by
      simp only [fsExists, fsLookup_fsWrite, if_neg hne]
      exact hnew
    refine ⟨fsWrite (fsWrite (fsWrite fs (full_dir_path basePath dateF) .dir)
        (file_path basePath dateF nm) (.file []))
      (file_path basePath dateF nm) (.file w), ?_⟩
    simp [download_photo, hb, hd, hdir, h2, hmid]

/-- C7: a mid-stream transport failure leaves no file at the destination
path (the incomplete file is removed), the call reports failure, and the
download loop records that failure and continues with the remaining records
(counter unchanged) instead of aborting the batch. -/
theorem claim_C7 (net : Str → Transfer) (baseUrl basePath w : Str)
    (opts : CliOptions) (p : Photo) (rest : List Photo) (fs : Fs) (dl : Nat)
    (hb : validate_path basePath = true)
    (hd : validate_path (full_dir_path basePath p.date) = true)
    (hnew : fsExists fs (file_path basePath p.date p.name) = false)
    (hne : file_path basePath p.date p.name ≠ full_dir_path basePath p.date)
    (hmid : net (mk_url baseUrl p.tag p.name) = .failMid w)
    (hp : record_passes opts p = true) :
    (download_photo net baseUrl p.name p.tag p.date basePath fs).outcome = .failed
    ∧ fsLookup (download_photo net baseUrl p.name p.tag p.date basePath fs).fs
        (file_path basePath p.date p.name) = none
    ∧ run_downloads net baseUrl basePath opts (p :: rest) fs dl
      = ⟨(run_downloads net baseUrl basePath opts rest
            (download_photo net baseUrl p.name p.tag p.date basePath fs).fs dl).fs,
         (run_downloads net baseUrl basePath opts rest
            (download_photo net baseUrl p.name p.tag p.date basePath fs).fs dl).downloaded,
         p :: (run_downloads net baseUrl basePath opts rest
            (download_photo net baseUrl p.name p.tag p.date basePath fs).fs dl).attempted,
         Outcome.failed :: (run_downloads net baseUrl basePath opts rest
            (download_photo net baseUrl p.name p.tag p.date basePath fs).fs dl).outcomes,
         mk_url baseUrl p.tag p.name :: (run_downloads net baseUrl basePath opts rest
            (download_photo net baseUrl p.name p.tag p.date basePath fs).fs dl).requests⟩ := by
  obtain ⟨fs2, heq⟩ := download_photo_failMid net baseUrl p.name p.tag p.date
    basePath w fs hb hd hnew hne hmid
  refine ⟨by rw [heq], ?_, ?_⟩
  · rw [heq]; exact fsLookup_fsRemove_self fs2 (file_path basePath p.date p.name)
  · simp [run_downloads, hp, heq]

/-- Witness for C7: a concrete mid-stream failure on `/b/2025-06-07/X.JPG`
with one further record in the batch. -/
theorem claim_C7_witness :
    validate_path "/b".data = true
    ∧ fsExists [(dir1, Node.dir)]
        (file_path "/b".data "2025-06-07".data "X.JPG".data) = false
    ∧ badNet (mk_url cameraBaseUrl "100RICOH".data "X.JPG".data)
        = .failMid "BY".data
    ∧ ((download_photo badNet cameraBaseUrl "X.JPG".data "100RICOH".data
          "2025-06-07".data "/b".data [(dir1, Node.dir)]).outcome = .failed
       ∧ fsLookup (download_photo badNet cameraBaseUrl "X.JPG".data "100RICOH".data
            "2025-06-07".data "/b".data [(dir1, Node.dir)]).fs
          (file_path "/b".data "2025-06-07".data "X.JPG".data) = none
       ∧ run_downloads badNet cameraBaseUrl "/b".data ⟨"all".data, [], []⟩
          (⟨"X.JPG".data, "100RICOH".data, "2025-06-07".data⟩ ::
            [⟨"Y.JPG".data, "100RICOH".data, "2025-06-07".data⟩])
          [(dir1, Node.dir)] 0
        = ⟨(run_downloads badNet cameraBaseUrl "/b".data ⟨"all".data, [], []⟩
              [⟨"Y.JPG".data, "100RICOH".data, "2025-06-07".data⟩]
              (download_photo badNet cameraBaseUrl "X.JPG".data "100RICOH".data
                "2025-06-07".data "/b".data [(dir1, Node.dir)]).fs 0).fs,
           (run_downloads badNet cameraBaseUrl "/b".data ⟨"all".data, [], []⟩
              [⟨"Y.JPG".data, "100RICOH".data, "2025-06-07".data⟩]
              (download_photo badNet cameraBaseUrl "X.JPG".data "100RICOH".data
                "2025-06-07".data "/b".data [(dir1, Node.dir)]).fs 0).downloaded,
           ⟨"X.JPG".data, "100RICOH".data, "2025-06-07".data⟩ ::
             (run_downloads badNet cameraBaseUrl "/b".data ⟨"all".data, [], []⟩
              [⟨"Y.JPG".data, "100RICOH".data, "2025-06-07".data⟩]
              (download_photo badNet cameraBaseUrl "X.JPG".data "100RICOH".data
                "2025-06-07".data "/b".data [(dir1, Node.dir)]).fs 0).attempted,
           Outcome.failed ::
             (run_downloads badNet cameraBaseUrl "/b".data ⟨"all".data, [], []⟩
              [⟨"Y.JPG".data, "100RICOH".data, "2025-06-07".data⟩]
              (download_photo badNet cameraBaseUrl "X.JPG".data "100RICOH".data
                "2025-06-07".data "/b".data [(dir1, Node.dir)]).fs 0).outcomes,
           mk_url cameraBaseUrl "100RICOH".data "X.JPG".data ::
             (run_downloads badNet cameraBaseUrl "/b".data ⟨"all".data, [], []⟩
              [⟨"Y.JPG".data, "100RICOH".data, "2025-06-07".data⟩]
              (download_photo badNet cameraBaseUrl "X.JPG".data "100RICOH".data
                "2025-06-07".data "/b".data [(dir1, Node.dir)]).fs 0).requests⟩) :=
  ⟨by decide, by decide, rfl,
   claim_C7 badNet cameraBaseUrl "/b".data "BY".data ⟨"all".data, [], []⟩
     ⟨"X.JPG".data, "100RICOH".data, "2025-06-07".data⟩
     [⟨"Y.JPG".data, "100RICOH".data, "2025-06-07".data⟩]
     [(dir1, Node.dir)] 0
     (by decide) (by decide) (by decide) (by decide) rfl (by decide)⟩

end RGR2
